import Mathlib

/-! # Aligned allocation layer of Eigen 2.0.0

A shallow embedding of `Eigen/src/Core/util/Memory.h`.

* Addresses and `size_t` values are natural numbers; every `size_t` operation of the source
  is reduced modulo `2 ^ bits`, where `bits` is the width of `size_t` and of a pointer.
* The preprocessor symbols the header tests are the fields of `Probe` and `Config`.
* The platform allocators (`malloc`, `posix_memalign`, `_mm_malloc`, `_aligned_malloc`,
  `alloca`) are external: what they hand back is given by a `Platform`, and every call to
  them, as well as every element constructor and destructor, is appended to the `trace` of
  the `State`.
* Memory is a map from the byte address of a pointer-sized slot to the word stored there.
  A store is total in the model; in particular the store that `ei_handmade_aligned_malloc`
  performs below the aligned address is executed whatever `malloc` returned, as in the source.
-/

namespace Eigen

/-! ## Configuration -/

/-- The four symbols that select the allocation primitive (lines 30-46 and `_MSC_VER`). -/
structure Probe where
  EIGEN_MALLOC_ALREADY_ALIGNED : Bool
  EIGEN_HAS_POSIX_MEMALIGN : Bool
  EIGEN_HAS_MM_MALLOC : Bool
  MSC_VER : Bool
  deriving DecidableEq, Repr

/-- Build configuration of the header. `assertions` says whether `ei_assert` is active;
`linux` is `__linux__`; `bits` is the width of `size_t` and of `void*`. -/
structure Config where
  probe : Probe
  EIGEN_NO_MALLOC : Bool
  EIGEN_EXCEPTIONS : Bool
  assertions : Bool
  linux : Bool
  EIGEN_STACK_ALLOCATION_LIMIT : Nat
  bits : Nat
  deriving DecidableEq, Repr

/-- Modelled from the spec: the macro `ei_assert` is defined outside `Memory.h`. Per the
spec (section 7) it is an assertion-style failure, fatal in debug builds and unchecked in
release builds. The result says whether `ei_assert(cond)` aborts the program. -/
def ei_assert (cfg : Config) (cond : Bool) : Bool :=
  cfg.assertions && !cond

/-- Value of `sizeof(void*)` in bytes. -/
def sizeof_ptr (bits : Nat) : Nat := bits / 8

/-- Bitwise complement of a `size_t` value: `~x`. -/
def size_t_not (bits x : Nat) : Nat := 2 ^ bits - 1 - x % 2 ^ bits

/-! ## Platform, events, state -/

/-- What the external primitives return. `posix_memalign alignment size` gives the return
code and the value `result` holds after the call. An address `0` is the null pointer. -/
structure Platform where
  malloc : Nat → Nat
  posix_memalign : Nat → Nat → Nat × Nat
  _mm_malloc : Nat → Nat → Nat
  _aligned_malloc : Nat → Nat → Nat
  alloca : Nat → Nat

/-- Observable calls: platform primitives, and constructor / destructor runs on `ptr[index]`. -/
inductive Event where
  | malloc (size : Nat)
  | free (ptr : Nat)
  | posix_memalign (alignment size : Nat)
  | _mm_malloc (size alignment : Nat)
  | _mm_free (ptr : Nat)
  | _aligned_malloc (size alignment : Nat)
  | _aligned_free (ptr : Nat)
  | alloca (size : Nat)
  | construct (ptr index : Nat)
  | destruct (ptr index : Nat)
  deriving DecidableEq, Repr

/-- Memory (pointer-sized slots, keyed by byte address) and the calls made so far. -/
structure State where
  mem : Nat → Nat
  trace : List Event

/-- Append one event to the trace. -/
def State.push (st : State) (e : Event) : State :=
  { st with trace := st.trace ++ [e] }

/-- Store the word `v` in the slot at address `a`. -/
def State.store (st : State) (a v : Nat) : State :=
  { st with mem := fun x => if x = a then v else st.mem x }

/-- A state with zeroed memory and no call made. -/
def State.init : State := { mem := fun _ => 0, trace := [] }

/-- How a call that may throw or abort ends: it returns a pointer, throws `std::bad_alloc`,
throws `std::bad_array_new_length`, or stops at a failed assertion. -/
inductive Outcome where
  | ret (ptr : Nat)
  | bad_alloc
  | bad_array_new_length
  | assert_fail
  deriving DecidableEq, Repr

/-! ## Handmade aligned allocator (lines 48-68) -/

/-- Address of the slot `reinterpret_cast<void**>(ptr) - 1`. -/
def slot_before (bits ptr : Nat) : Nat :=
  (ptr + 2 ^ bits - sizeof_ptr bits) % 2 ^ bits

/-- `ei_handmade_aligned_malloc(size)`: returns `aligned` and the new state. -/
def ei_handmade_aligned_malloc (bits : Nat) (env : Platform) (size : Nat) (st : State) :
    Nat × State :=
  let request := (size + 16) % 2 ^ bits
  let original := env.malloc request
  let st1 := st.push (.malloc request)
  let aligned := ((original &&& size_t_not bits 15) + 16) % 2 ^ bits
  let st2 := st1.store (slot_before bits aligned) original
  (aligned, st2)

/-- `ei_handmade_aligned_free(ptr)`. -/
def ei_handmade_aligned_free (bits : Nat) (ptr : Nat) (st : State) : State :=
  if ptr ≠ 0 then st.push (.free (st.mem (slot_before bits ptr))) else st

/-! ## Aligned allocation front end (lines 70-104, 143-158) -/

/-- The allocation primitives `ei_aligned_malloc` can be compiled against. -/
inductive AllocPrimitive where
  | posix_memalign
  | malloc
  | _mm_malloc
  | _aligned_malloc
  | ei_handmade_aligned_malloc
  deriving DecidableEq, Repr

/-- The release primitives `ei_aligned_free` can be compiled against. -/
inductive FreePrimitive where
  | free
  | _mm_free
  | _aligned_free
  | ei_handmade_aligned_free
  deriving DecidableEq, Repr

/-- The `#if` chain of `ei_aligned_malloc` (lines 80-94). -/
def ei_aligned_malloc_primitive (p : Probe) : AllocPrimitive :=
  if p.EIGEN_HAS_POSIX_MEMALIGN && !p.EIGEN_MALLOC_ALREADY_ALIGNED then .posix_memalign
  else if p.EIGEN_MALLOC_ALREADY_ALIGNED then .malloc
  else if p.EIGEN_HAS_MM_MALLOC then ._mm_malloc
  else if p.MSC_VER then ._aligned_malloc
  else .ei_handmade_aligned_malloc

/-- The `#if` chain of `ei_aligned_free` (lines 147-157). -/
def ei_aligned_free_primitive (p : Probe) : FreePrimitive :=
  if p.EIGEN_MALLOC_ALREADY_ALIGNED then .free
  else if p.EIGEN_HAS_POSIX_MEMALIGN then .free
  else if p.EIGEN_HAS_MM_MALLOC then ._mm_free
  else if p.MSC_VER then ._aligned_free
  else .ei_handmade_aligned_free

/-- The selected primitive is run: the value of `result`, the value of `failed` that the
`EIGEN_EXCEPTIONS` lines compute for it, and the new state. -/
def ei_aligned_malloc_body (cfg : Config) (env : Platform) (size : Nat) (st : State) :
    Nat × Bool × State :=
  match ei_aligned_malloc_primitive cfg.probe with
  | .posix_memalign =>
      let r := env.posix_memalign 16 size
      (r.2, r.1 != 0, st.push (.posix_memalign 16 size))
  | .malloc =>
      let result := env.malloc size
      (result, result == 0, st.push (.malloc size))
  | ._mm_malloc =>
      let result := env._mm_malloc size 16
      (result, result == 0, st.push (._mm_malloc size 16))
  | ._aligned_malloc =>
      let result := env._aligned_malloc size 16
      (result, result == 0, st.push (._aligned_malloc size 16))
  | .ei_handmade_aligned_malloc =>
      let r := ei_handmade_aligned_malloc cfg.bits env size st
      (r.1, r.1 == 0, r.2)

/-- `ei_aligned_malloc(size)`. -/
def ei_aligned_malloc (cfg : Config) (env : Platform) (size : Nat) (st : State) :
    Outcome × State :=
  if cfg.EIGEN_NO_MALLOC && ei_assert cfg false then (.assert_fail, st)
  else
    let r := ei_aligned_malloc_body cfg env size st
    if cfg.EIGEN_EXCEPTIONS && r.2.1 then (.bad_alloc, r.2.2)
    else (.ret r.1, r.2.2)

/-- `ei_aligned_free(ptr)`. -/
def ei_aligned_free (cfg : Config) (ptr : Nat) (st : State) : State :=
  match ei_aligned_free_primitive cfg.probe with
  | .free => st.push (.free ptr)
  | ._mm_free => st.push (._mm_free ptr)
  | ._aligned_free => st.push (._aligned_free ptr)
  | .ei_handmade_aligned_free => ei_handmade_aligned_free cfg.bits ptr st

/-! ## Conditional dispatch (lines 106-125, 160-170) -/

/-- `ei_conditional_aligned_malloc<Align>(size)`: the primary template for `Align = true`,
the specialisation for `Align = false`. -/
def ei_conditional_aligned_malloc (cfg : Config) (env : Platform) (Align : Bool) (size : Nat)
    (st : State) : Outcome × State :=
  match Align with
  | true => ei_aligned_malloc cfg env size st
  | false =>
      if cfg.EIGEN_NO_MALLOC && ei_assert cfg false then (.assert_fail, st)
      else
        let result := env.malloc size
        let st1 := st.push (.malloc size)
        if cfg.EIGEN_EXCEPTIONS && result == 0 then (.bad_alloc, st1)
        else (.ret result, st1)

/-- `ei_conditional_aligned_free<Align>(ptr)`. -/
def ei_conditional_aligned_free (cfg : Config) (Align : Bool) (ptr : Nat) (st : State) : State :=
  match Align with
  | true => ei_aligned_free cfg ptr st
  | false => st.push (.free ptr)

/-! ## Typed arrays (lines 127-141, 172-197) -/

/-- The default constructor runs on the elements `ptr[0], ..., ptr[size - 1]`, in increasing
index order. -/
def construct_elements_of_array (ptr size : Nat) (st : State) : State :=
  (List.range size).foldl (fun s i => s.push (.construct ptr i)) st

/-- The new-expression `::new(ptr) T[size]` with the placement form of `operator new[]`, as
the language defines it. `max_array_bytes` is the limit the implementation sets on the size
of an array object; no array of `2 ^ bits` bytes or more exists, so the limit in force is
`min max_array_bytes (2 ^ bits - 1)`.
* When `sizeof(T) * size` exceeds the limit the expression throws
  `std::bad_array_new_length` and constructs nothing.
* `operator new[](size_t, void*)` is declared `throw()`, so a null `ptr` is the failure
  value: no element is constructed and the expression is null (C++03 5.3.4; later standards
  leave a null `ptr` undefined).
* Otherwise the elements are default constructed in increasing index order and the
  expression is `ptr`. -/
def placement_new_array (bits max_array_bytes sizeofT ptr size : Nat) (st : State) :
    Outcome × State :=
  if sizeofT * size > min max_array_bytes (2 ^ bits - 1) then (.bad_array_new_length, st)
  else if ptr = 0 then (.ret 0, st)
  else (.ret ptr, construct_elements_of_array ptr size st)

/-- `ei_aligned_new<T>(size)`, with `sizeofT = sizeof(T)`: the allocation of
`sizeof(T)*size` bytes, a `size_t` product, then the new-expression on its result. -/
def ei_aligned_new (cfg : Config) (env : Platform) (max_array_bytes sizeofT size : Nat)
    (st : State) : Outcome × State :=
  match ei_aligned_malloc cfg env ((sizeofT * size) % 2 ^ cfg.bits) st with
  | (.ret void_result, st1) =>
      placement_new_array cfg.bits max_array_bytes sizeofT void_result size st1
  | r => r

/-- `ei_conditional_aligned_new<T, Align>(size)`. -/
def ei_conditional_aligned_new (cfg : Config) (env : Platform) (Align : Bool)
    (max_array_bytes sizeofT size : Nat) (st : State) : Outcome × State :=
  match ei_conditional_aligned_malloc cfg env Align ((sizeofT * size) % 2 ^ cfg.bits) st with
  | (.ret void_result, st1) =>
      placement_new_array cfg.bits max_array_bytes sizeofT void_result size st1
  | r => r

/-- `ei_delete_elements_of_array<T>(ptr, size)`: `while(size) ptr[--size].~T();`. -/
def ei_delete_elements_of_array (ptr : Nat) : Nat → State → State
  | 0, st => st
  | size + 1, st => ei_delete_elements_of_array ptr size (st.push (.destruct ptr size))

/-- `ei_aligned_delete<T>(ptr, size)`. -/
def ei_aligned_delete (cfg : Config) (ptr size : Nat) (st : State) : State :=
  ei_aligned_free cfg ptr (ei_delete_elements_of_array ptr size st)

/-- `ei_conditional_aligned_delete<T, Align>(ptr, size)`. -/
def ei_conditional_aligned_delete (cfg : Config) (Align : Bool) (ptr size : Nat) (st : State) :
    State :=
  ei_conditional_aligned_free cfg Align ptr (ei_delete_elements_of_array ptr size st)

/-! ## Stack / heap scratch buffers (lines 213-236) -/

/-- The call the expansion of `ei_aligned_stack_alloc(SIZE)` evaluates. -/
inductive StackAllocCall where
  | alloca (size : Nat)
  | ei_aligned_malloc (size : Nat)
  deriving DecidableEq, Repr

/-- The macro `ei_aligned_stack_alloc(SIZE)`, on the `__linux__` branch and on the other. -/
def ei_aligned_stack_alloc (cfg : Config) (SIZE : Nat) : StackAllocCall :=
  if cfg.linux then
    if SIZE ≤ cfg.EIGEN_STACK_ALLOCATION_LIMIT then .alloca SIZE else .ei_aligned_malloc SIZE
  else .ei_aligned_malloc SIZE

/-- The macro `ei_aligned_stack_free(PTR,SIZE)`: the argument of the `ei_aligned_free` call it
makes, if it makes one. -/
def ei_aligned_stack_free (cfg : Config) (PTR SIZE : Nat) : Option Nat :=
  if cfg.linux then
    if SIZE > cfg.EIGEN_STACK_ALLOCATION_LIMIT then some PTR else none
  else some PTR

/-- Running the call selected by `ei_aligned_stack_alloc`. -/
def StackAllocCall.run (cfg : Config) (env : Platform) (st : State) :
    StackAllocCall → Outcome × State
  | .alloca size => (.ret (env.alloca size), st.push (.alloca size))
  | .ei_aligned_malloc size => Eigen.ei_aligned_malloc cfg env size st

/-- Running `ei_aligned_stack_free(PTR,SIZE)`. -/
def ei_aligned_stack_free_run (cfg : Config) (PTR SIZE : Nat) (st : State) : State :=
  match ei_aligned_stack_free cfg PTR SIZE with
  | some p => ei_aligned_free cfg p st
  | none => st

/-! ## Per-type operator new (lines 277-290) -/

/-- The argument `NeedsToAlign` that `EIGEN_MAKE_ALIGNED_OPERATOR_NEW_IF_VECTORIZABLE_FIXED_SIZE`
passes on: `((Size)!=Eigen::Dynamic) && ((sizeof(Scalar)*(Size))%16==0)`. `Size` is an `int`,
converted to `size_t` for the product, which is taken modulo `2 ^ bits`. The constant
`Eigen::Dynamic` is declared outside `Memory.h` and is a parameter. -/
def NeedsToAlign (bits : Nat) (Dynamic : Int) (sizeofScalar : Nat) (Size : Int) : Bool :=
  (Size != Dynamic) && ((sizeofScalar * (Size % 2 ^ bits).toNat) % 2 ^ bits % 16 == 0)

/-! ## Alignment offset of a data pointer (lines 199-211) -/

/-- The value of a 32-bit `int` with the two's complement bit pattern `n`. -/
def int_of_bits (n : Nat) : Int :=
  if n % 2 ^ 32 < 2 ^ 31 then (n % 2 ^ 32 : Nat) else ((n % 2 ^ 32 : Nat) : Int) - 2 ^ 32

/-- `ei_alignmentOffset<Scalar>(ptr, maxOffset)`, with `sizeofScalar = sizeof(Scalar)` and
`PacketSize = ei_packet_traits<Scalar>::size`, a constant declared outside `Memory.h` and
taken as a parameter. An `int` has 32 bits and is held as its two's complement bit pattern:
the conversion `int(...)` and the subtraction are taken modulo `2 ^ 32`, and `&` is the bitwise
and of the patterns. The first operand of `std::min<int>` is
`(PacketSize - (int(size_t(ptr)/sizeof(Scalar)) & PacketAlignedMask)) & PacketAlignedMask`. -/
def ei_alignmentOffset (sizeofScalar PacketSize ptr : Nat) (maxOffset : Int) : Int :=
  let PacketAlignedMask := (PacketSize + 2 ^ 32 - 1) % 2 ^ 32
  let Vectorized := decide (PacketSize > 1)
  if Vectorized then
    let index := (ptr / sizeofScalar) % 2 ^ 32
    let difference := (PacketSize + 2 ^ 32 - (index &&& PacketAlignedMask)) % 2 ^ 32
    min (int_of_bits (difference &&& PacketAlignedMask)) maxOffset
  else 0

/-! ## The allocator class `aligned_allocator<T>` (lines 305-375) -/

/-- `aligned_allocator<T>::max_size()`: `std::numeric_limits<size_type>::max()`. -/
def aligned_allocator.max_size (bits : Nat) : Nat := 2 ^ bits - 1

/-- The argument `num * sizeof(T)` that `aligned_allocator<T>::allocate(num)` passes to
`ei_aligned_malloc`, a `size_t` product. -/
def aligned_allocator.allocate_bytes (bits sizeofT num : Nat) : Nat :=
  (num * sizeofT) % 2 ^ bits

/-- `aligned_allocator<T>::allocate(num, hint)`, with `sizeofT = sizeof(T)`; `hint` is unused. -/
def aligned_allocator.allocate (cfg : Config) (env : Platform) (sizeofT num : Nat)
    (st : State) : Outcome × State :=
  ei_aligned_malloc cfg env (aligned_allocator.allocate_bytes cfg.bits sizeofT num) st

/-- `aligned_allocator<T>::deallocate(p, num)`; `num` is unused. -/
def aligned_allocator.deallocate (cfg : Config) (p : Nat) (st : State) : State :=
  ei_aligned_free cfg p st

/-! ## Pairing of primitives, as the specification words it -/

/-- The release call the specification pairs with each allocation primitive: `malloc` and
`posix_memalign` with `free`, `_mm_malloc` with `_mm_free`, `_aligned_malloc` with
`_aligned_free`, `ei_handmade_aligned_malloc` with `ei_handmade_aligned_free`. -/
def release_counterpart : AllocPrimitive → FreePrimitive
  | .posix_memalign => .free
  | .malloc => .free
  | ._mm_malloc => ._mm_free
  | ._aligned_malloc => ._aligned_free
  | .ei_handmade_aligned_malloc => .ei_handmade_aligned_free

/-- The release the specification expects of `destruct-and-free(ptr, count)`, "releases the
raw memory via the matching strategy": the release call of the strategy in force on `ptr`,
which for the fallback strategy is the plain `free` of the origin stored in the slot before
`ptr`, and nothing for a null `ptr`. `mem` is the memory at the time of the call. -/
def matching_release (cfg : Config) (ptr : Nat) (mem : Nat → Nat) : List Event :=
  match release_counterpart (ei_aligned_malloc_primitive cfg.probe) with
  | .free => [.free ptr]
  | ._mm_free => [._mm_free ptr]
  | ._aligned_free => [._aligned_free ptr]
  | .ei_handmade_aligned_free =>
      if ptr = 0 then [] else [.free (mem (slot_before cfg.bits ptr))]

/-! ## Concrete configurations and platforms -/

/-- No native aligned primitive: every probe symbol is off. -/
def probe_fallback : Probe :=
  { EIGEN_MALLOC_ALREADY_ALIGNED := false, EIGEN_HAS_POSIX_MEMALIGN := false,
    EIGEN_HAS_MM_MALLOC := false, MSC_VER := false }

/-- A 64-bit Linux debug build with exceptions, compiled against the handmade allocator. -/
def config_fallback : Config :=
  { probe := probe_fallback, EIGEN_NO_MALLOC := false, EIGEN_EXCEPTIONS := true,
    assertions := true, linux := true, EIGEN_STACK_ALLOCATION_LIMIT := 1000000, bits := 64 }

/-- A platform whose allocators all hand back the address `4104` (`0x1008`). -/
def platform_ok : Platform :=
  { malloc := fun _ => 4104, posix_memalign := fun _ _ => (0, 4112),
    _mm_malloc := fun _ _ => 4112, _aligned_malloc := fun _ _ => 4112, alloca := fun _ => 8192 }

/-- A platform out of memory: every allocator fails (`posix_memalign` with `ENOMEM = 12`). -/
def platform_out_of_memory : Platform :=
  { malloc := fun _ => 0, posix_memalign := fun _ _ => (12, 0),
    _mm_malloc := fun _ _ => 0, _aligned_malloc := fun _ _ => 0, alloca := fun _ => 8192 }

/-- The 64-bit build on a platform whose `malloc` already aligns (`__APPLE__`, `_WIN64`). -/
def config_malloc_aligned : Config :=
  { config_fallback with
    probe := { probe_fallback with EIGEN_MALLOC_ALREADY_ALIGNED := true } }

/-- A release build (`ei_assert` compiled out) with `EIGEN_NO_MALLOC` defined. -/
def config_no_malloc_release : Config :=
  { config_fallback with EIGEN_NO_MALLOC := true, assertions := false }

/-- A debug build (`ei_assert` active) with `EIGEN_NO_MALLOC` defined. -/
def config_no_malloc_debug : Config :=
  { config_fallback with EIGEN_NO_MALLOC := true, assertions := true }

/-- The fallback build on a platform where `__linux__` is not defined. -/
def config_not_linux : Config :=
  { config_fallback with linux := false }

/-! ## Arithmetic of the alignment mask -/

/-- For a word of at least 4 bits, `~size_t(15)` is `2 ^ bits - 16`. -/
theorem size_t_not_15 (bits : Nat) (h : 4 ≤ bits) : size_t_not bits 15 = 2 ^ bits - 16 := by
  have h16 : (16 : Nat) ≤ 2 ^ bits := by
    calc (16 : Nat) = 2 ^ 4 := by norm_num
      _ ≤ 2 ^ bits := Nat.pow_le_pow_right (by norm_num) h
  unfold size_t_not
  rw [Nat.mod_eq_of_lt (by omega)]
  omega

/-- The mask `~size_t(15)` is a multiple of 16. -/
theorem size_t_not_15_mod (bits : Nat) (h : 4 ≤ bits) : size_t_not bits 15 % 16 = 0 := by
  rw [size_t_not_15 bits h]
  obtain ⟨k, rfl⟩ : ∃ k, bits = 4 + k := ⟨bits - 4, by omega⟩
  rw [pow_add]
  omega

/-- Masking with `~size_t(15)` yields a multiple of 16. -/
theorem land_mask_mod (bits x : Nat) (h : 4 ≤ bits) : (x &&& size_t_not bits 15) % 16 = 0 := by
  have e : ∀ y : Nat, y % 16 = y &&& 15 := fun y => (Nat.and_pow_two_sub_one_eq_mod y 4).symm
  rw [e, Nat.and_assoc, ← e, size_t_not_15_mod bits h, Nat.and_zero]

/-- Reduction modulo `2 ^ bits` keeps multiples of 16. -/
theorem mod_word_mod (bits x : Nat) (h : 4 ≤ bits) : x % 2 ^ bits % 16 = x % 16 := by
  obtain ⟨k, rfl⟩ : ∃ k, bits = 4 + k := ⟨bits - 4, by omega⟩
  rw [pow_add]
  exact Nat.mod_mul_right_mod x (2 ^ 4) (2 ^ k)

/-- The address computed by `ei_handmade_aligned_malloc` is a multiple of 16. -/
theorem handmade_aligned_mod (bits : Nat) (env : Platform) (size : Nat) (st : State) :
    (ei_handmade_aligned_malloc bits env size st).1 % 16 = 0 := by
  simp only [ei_handmade_aligned_malloc]
  by_cases h : 4 ≤ bits
  · rw [mod_word_mod _ _ h, Nat.add_mod, land_mask_mod _ _ h]
  · have hb : bits < 4 := by omega
    interval_cases bits <;> simp [size_t_not]

/-! ## The handmade allocator and the front end -/

/-- C1: for every size and every address handed back by `malloc`, the address returned by
`ei_handmade_aligned_malloc` is a multiple of 16, addresses being machine words (arithmetic
modulo `2 ^ bits`); and so is every address `ei_aligned_malloc` returns when the probe
selects the handmade allocator. -/
theorem ei_handmade_aligned_malloc_is_aligned (cfg : Config) (env : Platform) (size : Nat)
    (st : State) :
    (ei_handmade_aligned_malloc cfg.bits env size st).1 % 16 = 0 ∧
    (ei_aligned_malloc_primitive cfg.probe = .ei_handmade_aligned_malloc →
      ∀ p, (ei_aligned_malloc cfg env size st).1 = .ret p → p % 16 = 0) := by
  refine ⟨handmade_aligned_mod _ _ _ _, ?_⟩
  intro hsel p hp
  unfold ei_aligned_malloc at hp
  simp only [ei_aligned_malloc_body, hsel] at hp
  split at hp
  · simp at hp
  · split at hp
    · simp at hp
    · simp only [Outcome.ret.injEq] at hp
      rw [← hp]
      exact handmade_aligned_mod _ _ _ _

/-- C1 at a concrete input: a 64-bit fallback build, `malloc(40)` handing back `0x1008`;
`ei_aligned_malloc(24)` returns `0x1010`, a multiple of 16. -/
theorem ei_handmade_aligned_malloc_is_aligned_witness :
    ei_aligned_malloc_primitive config_fallback.probe = .ei_handmade_aligned_malloc ∧
    (ei_aligned_malloc config_fallback platform_ok 24 State.init).1 = .ret 4112 ∧
    4112 % 16 = 0 :=
  ⟨rfl, by decide,
    (ei_handmade_aligned_malloc_is_aligned config_fallback platform_ok 24 State.init).2 rfl 4112
      (by decide)⟩

/-- When the selected primitive is not the handmade allocator and `EIGEN_EXCEPTIONS` is defined,
a failing platform allocation makes `ei_aligned_malloc` throw `std::bad_alloc`. -/
theorem ei_aligned_malloc_native_failure_throws (cfg : Config) (env : Platform) (size : Nat)
    (st : State) (hexc : cfg.EIGEN_EXCEPTIONS = true)
    (hno : (cfg.EIGEN_NO_MALLOC && ei_assert cfg false) = false)
    (hfail : match ei_aligned_malloc_primitive cfg.probe with
      | .posix_memalign => (env.posix_memalign 16 size).1 ≠ 0
      | .malloc => env.malloc size = 0
      | ._mm_malloc => env._mm_malloc size 16 = 0
      | ._aligned_malloc => env._aligned_malloc size 16 = 0
      | .ei_handmade_aligned_malloc => False) :
    (ei_aligned_malloc cfg env size st).1 = .bad_alloc := by
  unfold ei_aligned_malloc
  simp only [hno, hexc, ei_aligned_malloc_body]
  cases hsel : ei_aligned_malloc_primitive cfg.probe <;> simp only [hsel] at hfail <;>
    simp [hfail]

/-- On the handmade path a null result of `malloc` is never seen: for every size, on words
of at least 5 bits, `ei_aligned_malloc` returns the address 16, with or without
`EIGEN_EXCEPTIONS`. -/
theorem ei_aligned_malloc_handmade_null_general (cfg : Config) (env : Platform) (size : Nat)
    (st : State) (hsel : ei_aligned_malloc_primitive cfg.probe = .ei_handmade_aligned_malloc)
    (hno : (cfg.EIGEN_NO_MALLOC && ei_assert cfg false) = false) (hbits : 5 ≤ cfg.bits)
    (hnull : env.malloc ((size + 16) % 2 ^ cfg.bits) = 0) :
    (ei_aligned_malloc cfg env size st).1 = .ret 16 := by
  have h32 : (32 : Nat) ≤ 2 ^ cfg.bits := by
    calc (32 : Nat) = 2 ^ 5 := by norm_num
      _ ≤ 2 ^ cfg.bits := Nat.pow_le_pow_right (by norm_num) hbits
  have h16 : (16 : Nat) % 2 ^ cfg.bits = 16 := Nat.mod_eq_of_lt (by omega)
  unfold ei_aligned_malloc
  simp [hno, ei_aligned_malloc_body, hsel, ei_handmade_aligned_malloc, hnull, h16]

/-- C2 (evaluation at the failing input): in a fallback build with `EIGEN_EXCEPTIONS` defined,
when `malloc` returns null, `ei_aligned_malloc(8)` does not throw: after the one
call `malloc(24)` it stores the null origin in the slot at address 8 and returns the
address 16. -/
theorem ei_aligned_malloc_handmade_null_returns :
    config_fallback.EIGEN_EXCEPTIONS = true ∧
    ei_aligned_malloc_primitive config_fallback.probe = .ei_handmade_aligned_malloc ∧
    platform_out_of_memory.malloc 24 = 0 ∧
    (ei_aligned_malloc config_fallback platform_out_of_memory 8 State.init).1 = .ret 16 ∧
    (ei_aligned_malloc config_fallback platform_out_of_memory 8 State.init).2.trace
      = [.malloc 24] ∧
    (ei_aligned_malloc config_fallback platform_out_of_memory 8 State.init).1 ≠ .bad_alloc := by
  decide

/-- The store of `ei_handmade_aligned_malloc` leaves the origin in the slot before the
returned address, and the call adds exactly one `malloc` of `size + 16` bytes to the trace. -/
theorem handmade_malloc_effect (bits : Nat) (env : Platform) (size : Nat) (st : State) :
    (ei_handmade_aligned_malloc bits env size st).2.mem
        (slot_before bits (ei_handmade_aligned_malloc bits env size st).1)
      = env.malloc ((size + 16) % 2 ^ bits) ∧
    (ei_handmade_aligned_malloc bits env size st).2.trace
      = st.trace ++ [.malloc ((size + 16) % 2 ^ bits)] := by
  simp [ei_handmade_aligned_malloc, State.store, State.push]

/-- The aligned address is not null when the block starts more than 16 bytes below the top
of the address space. -/
theorem handmade_aligned_ne_zero (bits : Nat) (env : Platform) (size : Nat) (st : State)
    (h : env.malloc ((size + 16) % 2 ^ bits) + 16 < 2 ^ bits) :
    (ei_handmade_aligned_malloc bits env size st).1 ≠ 0 := by
  simp only [ei_handmade_aligned_malloc]
  have hle : env.malloc ((size + 16) % 2 ^ bits) &&& size_t_not bits 15
      ≤ env.malloc ((size + 16) % 2 ^ bits) := Nat.and_le_left
  rw [Nat.mod_eq_of_lt (by omega)]
  omega

/-- C3: fallback round trip. For every size and every non-null block address `original`
handed back by `malloc`, the block starting more than 16 bytes below the top of the address
space (`original + 16 < 2 ^ bits`, as the start of every block the plain allocator can hand
back does), `ei_handmade_aligned_malloc` makes a single call, `malloc` of the `size_t` sum
`size + 16`, and if
the slot before the returned pointer still holds the same word in the state `st2` reached
afterwards, `ei_handmade_aligned_free` of that pointer makes exactly one call,
`free(original)`, and changes nothing else. -/
theorem ei_handmade_round_trip (bits : Nat) (env : Platform) (size : Nat) (st st2 : State)
    (hnull : env.malloc ((size + 16) % 2 ^ bits) ≠ 0)
    (htop : env.malloc ((size + 16) % 2 ^ bits) + 16 < 2 ^ bits)
    (hkeep : st2.mem (slot_before bits (ei_handmade_aligned_malloc bits env size st).1)
      = (ei_handmade_aligned_malloc bits env size st).2.mem
          (slot_before bits (ei_handmade_aligned_malloc bits env size st).1)) :
    (ei_handmade_aligned_malloc bits env size st).2.trace
      = st.trace ++ [.malloc ((size + 16) % 2 ^ bits)] ∧
    ei_handmade_aligned_free bits (ei_handmade_aligned_malloc bits env size st).1 st2
      = { mem := st2.mem,
          trace := st2.trace ++ [.free (env.malloc ((size + 16) % 2 ^ bits))] } := by
  have _ := hnull
  refine ⟨(handmade_malloc_effect bits env size st).2, ?_⟩
  rw [(handmade_malloc_effect bits env size st).1] at hkeep
  unfold ei_handmade_aligned_free
  rw [if_pos (handmade_aligned_ne_zero bits env size st htop), hkeep]
  rfl

/-- C3 at a concrete input: a 64-bit machine, `malloc(40)` handing back `0x1008`,
the free following the allocation directly. -/
theorem ei_handmade_round_trip_witness :
    (ei_handmade_aligned_malloc 64 platform_ok 24 State.init).2.trace = [.malloc 40] ∧
    (ei_handmade_aligned_free 64 (ei_handmade_aligned_malloc 64 platform_ok 24 State.init).1
        (ei_handmade_aligned_malloc 64 platform_ok 24 State.init).2).trace
      = [.malloc 40, .free 4104] := by
  have h := ei_handmade_round_trip 64 platform_ok 24 State.init
    (ei_handmade_aligned_malloc 64 platform_ok 24 State.init).2
    (by decide) (by decide) rfl
  refine ⟨by decide, ?_⟩
  rw [h.2]
  decide

/-- C4: for each of the 16 combinations of the four probe symbols, the release primitive
`ei_aligned_free` is compiled against is the counterpart of the allocation primitive
`ei_aligned_malloc` is compiled against. -/
theorem ei_aligned_free_matches_ei_aligned_malloc (p : Probe) :
    ei_aligned_free_primitive p = release_counterpart (ei_aligned_malloc_primitive p) := by
  rcases p with ⟨a, b, c, d⟩
  cases a <;> cases b <;> cases c <;> cases d <;> rfl

/-! ## Forbidden heap allocation -/

/-- C5 as stated fails: in a release build, where `ei_assert` is unchecked, with
`EIGEN_NO_MALLOC` defined, `ei_aligned_malloc(8)` and `ei_conditional_aligned_malloc<false>(8)`
do not fail: each calls `malloc` and returns a pointer. -/
theorem ei_aligned_malloc_no_malloc_release :
    config_no_malloc_release.EIGEN_NO_MALLOC = true ∧
    (ei_aligned_malloc config_no_malloc_release platform_ok 8 State.init).1 = .ret 4112 ∧
    (ei_aligned_malloc config_no_malloc_release platform_ok 8 State.init).2.trace
      = [.malloc 24] ∧
    (ei_conditional_aligned_malloc config_no_malloc_release platform_ok false 8 State.init).1
      = .ret 4104 ∧
    (ei_conditional_aligned_malloc config_no_malloc_release platform_ok false 8 State.init).2.trace
      = [.malloc 8] := by
  decide

/-- C5 (amended): with `EIGEN_NO_MALLOC` defined and `ei_assert` active (a debug build), every
call of `ei_aligned_malloc` and of `ei_conditional_aligned_malloc<Align>`, for both values of
`Align` and every size, fails with the assertion, and the state is the one before the call:
no platform allocator has been called. -/
theorem ei_aligned_malloc_no_malloc_asserts (cfg : Config) (env : Platform) (Align : Bool)
    (size : Nat) (st : State) (hno : cfg.EIGEN_NO_MALLOC = true)
    (hdbg : cfg.assertions = true) :
    ei_aligned_malloc cfg env size st = (.assert_fail, st) ∧
    ei_conditional_aligned_malloc cfg env Align size st = (.assert_fail, st) := by
  have h1 : ei_aligned_malloc cfg env size st = (.assert_fail, st) := by
    simp [ei_aligned_malloc, ei_assert, hno, hdbg]
  refine ⟨h1, ?_⟩
  cases Align
  · simp [ei_conditional_aligned_malloc, ei_assert, hno, hdbg]
  · simpa [ei_conditional_aligned_malloc] using h1

/-- C5 (amended) at a concrete input: the debug build with `EIGEN_NO_MALLOC`, the plain
variant, 8 bytes. -/
theorem ei_aligned_malloc_no_malloc_asserts_witness :
    config_no_malloc_debug.EIGEN_NO_MALLOC = true ∧
    config_no_malloc_debug.assertions = true ∧
    (ei_aligned_malloc config_no_malloc_debug platform_ok 8 State.init
        = (.assert_fail, State.init) ∧
      ei_conditional_aligned_malloc config_no_malloc_debug platform_ok false 8 State.init
        = (.assert_fail, State.init)) :=
  ⟨rfl, rfl,
    ei_aligned_malloc_no_malloc_asserts config_no_malloc_debug platform_ok false 8 State.init
      rfl rfl⟩

/-! ## Scratch buffers -/

/-- C6 as stated fails: where `__linux__` is not defined, a size below the limit does not
go to the stack: `ei_aligned_stack_alloc(16)` is `ei_aligned_malloc(16)`. -/
theorem ei_aligned_stack_alloc_not_linux :
    16 ≤ config_not_linux.EIGEN_STACK_ALLOCATION_LIMIT ∧
    ei_aligned_stack_alloc config_not_linux 16 = .ei_aligned_malloc 16 ∧
    ei_aligned_stack_alloc config_not_linux 16 ≠ .alloca 16 ∧
    ((ei_aligned_stack_alloc config_not_linux 16).run config_not_linux platform_ok
      State.init).2.trace = [.malloc 32] := by
  decide

/-- C6 (amended): on the `__linux__` branch, for every byte size, `ei_aligned_stack_alloc(size)`
is `alloca(size)` if and only if `size <= EIGEN_STACK_ALLOCATION_LIMIT`, and
`ei_aligned_malloc(size)` otherwise; so the sizes `limit - 1` and `limit` go to the stack and
`limit + 1` goes to the heap. On the other branch every size goes to `ei_aligned_malloc`. -/
theorem ei_aligned_stack_alloc_threshold (cfg : Config) (env : Platform) (SIZE : Nat)
    (st : State) :
    (cfg.linux = true →
      (ei_aligned_stack_alloc cfg SIZE = .alloca SIZE ↔
        SIZE ≤ cfg.EIGEN_STACK_ALLOCATION_LIMIT) ∧
      (ei_aligned_stack_alloc cfg SIZE = .ei_aligned_malloc SIZE ↔
        ¬ SIZE ≤ cfg.EIGEN_STACK_ALLOCATION_LIMIT) ∧
      (SIZE ≤ cfg.EIGEN_STACK_ALLOCATION_LIMIT →
        (ei_aligned_stack_alloc cfg SIZE).run cfg env st
          = (.ret (env.alloca SIZE), st.push (.alloca SIZE))) ∧
      (¬ SIZE ≤ cfg.EIGEN_STACK_ALLOCATION_LIMIT →
        (ei_aligned_stack_alloc cfg SIZE).run cfg env st = ei_aligned_malloc cfg env SIZE st) ∧
      ei_aligned_stack_alloc cfg (cfg.EIGEN_STACK_ALLOCATION_LIMIT - 1)
        = .alloca (cfg.EIGEN_STACK_ALLOCATION_LIMIT - 1) ∧
      ei_aligned_stack_alloc cfg cfg.EIGEN_STACK_ALLOCATION_LIMIT
        = .alloca cfg.EIGEN_STACK_ALLOCATION_LIMIT ∧
      ei_aligned_stack_alloc cfg (cfg.EIGEN_STACK_ALLOCATION_LIMIT + 1)
        = .ei_aligned_malloc (cfg.EIGEN_STACK_ALLOCATION_LIMIT + 1)) ∧
    (cfg.linux = false →
      ei_aligned_stack_alloc cfg SIZE = .ei_aligned_malloc SIZE ∧
      (ei_aligned_stack_alloc cfg SIZE).run cfg env st = ei_aligned_malloc cfg env SIZE st) := by
  constructor
  · intro hl
    by_cases hs : SIZE ≤ cfg.EIGEN_STACK_ALLOCATION_LIMIT
    · simp [ei_aligned_stack_alloc, hl, hs, StackAllocCall.run]
    · simp [ei_aligned_stack_alloc, hl, hs, StackAllocCall.run]
  · intro hl
    simp [ei_aligned_stack_alloc, hl, StackAllocCall.run]

/-- C6 (amended) at concrete inputs: the 64-bit Linux build with the limit 1000000, at the
sizes 999999, 1000000 and 1000001. -/
theorem ei_aligned_stack_alloc_threshold_witness :
    config_fallback.linux = true ∧
    ei_aligned_stack_alloc config_fallback 999999 = .alloca 999999 ∧
    ei_aligned_stack_alloc config_fallback 1000000 = .alloca 1000000 ∧
    ei_aligned_stack_alloc config_fallback 1000001 = .ei_aligned_malloc 1000001 ∧
    (ei_aligned_stack_alloc config_fallback 1000000).run config_fallback platform_ok State.init
      = (.ret (platform_ok.alloca 1000000), State.init.push (.alloca 1000000)) :=
  have h := (ei_aligned_stack_alloc_threshold config_fallback platform_ok 1000000 State.init).1
    rfl
  ⟨rfl, h.2.2.2.2.1, h.2.2.2.2.2.1, h.2.2.2.2.2.2, h.2.2.1 (by decide)⟩

/-- C7: for every byte size `s` and pointer `p`, on both branches of the macros,
`ei_aligned_stack_free(p, s)` calls `ei_aligned_free(p)` if and only if
`ei_aligned_stack_alloc(s)` is the call `ei_aligned_malloc(s)`; it makes no call at all if and
only if `ei_aligned_stack_alloc(s)` is `alloca(s)`. So a stack buffer leaves the state
untouched and a heap buffer is released by `ei_aligned_free(p)`. -/
theorem ei_aligned_stack_free_pairs (cfg : Config) (p s : Nat) (st : State) :
    (ei_aligned_stack_free cfg p s = some p ↔
      ei_aligned_stack_alloc cfg s = .ei_aligned_malloc s) ∧
    (ei_aligned_stack_free cfg p s = none ↔ ei_aligned_stack_alloc cfg s = .alloca s) ∧
    (ei_aligned_stack_alloc cfg s = .alloca s → ei_aligned_stack_free_run cfg p s st = st) ∧
    (ei_aligned_stack_alloc cfg s = .ei_aligned_malloc s →
      ei_aligned_stack_free_run cfg p s st = ei_aligned_free cfg p st) := by
  by_cases hl : cfg.linux = true
  · by_cases hs : s ≤ cfg.EIGEN_STACK_ALLOCATION_LIMIT
    · have hs2 : ¬ cfg.EIGEN_STACK_ALLOCATION_LIMIT < s := by omega
      simp [ei_aligned_stack_free, ei_aligned_stack_alloc, ei_aligned_stack_free_run, hl, hs,
        if_neg hs2]
    · have hs2 : cfg.EIGEN_STACK_ALLOCATION_LIMIT < s := by omega
      simp [ei_aligned_stack_free, ei_aligned_stack_alloc, ei_aligned_stack_free_run, hl, hs,
        if_pos hs2]
  · simp [ei_aligned_stack_free, ei_aligned_stack_alloc, ei_aligned_stack_free_run, hl]

/-- C7 at concrete inputs: the Linux build at the limit (stack, nothing released) and the
build without `__linux__` at the same size (heap, released through `ei_aligned_free`). -/
theorem ei_aligned_stack_free_pairs_witness :
    ei_aligned_stack_free_run config_fallback 8192 1000000 State.init = State.init ∧
    ei_aligned_stack_free_run config_not_linux 4112 1000000 State.init
      = ei_aligned_free config_not_linux 4112 State.init :=
  ⟨(ei_aligned_stack_free_pairs config_fallback 8192 1000000 State.init).2.2.1 (by decide),
   (ei_aligned_stack_free_pairs config_not_linux 4112 1000000 State.init).2.2.2 (by decide)⟩

/-! ## Typed arrays -/

/-- Pushing construct events along a list of indices appends them in list order. -/
theorem foldl_construct (ptr : Nat) (l : List Nat) (st : State) :
    l.foldl (fun s i => s.push (.construct ptr i)) st
      = { mem := st.mem, trace := st.trace ++ l.map (Event.construct ptr) } := by
  induction l generalizing st with
  | nil => simp
  | cons a l ih =>
    rw [List.foldl_cons, ih]
    simp [State.push]

/-- The constructors run on the indices `0, 1, ..., size - 1`, in that order. -/
theorem construct_elements_of_array_eq (ptr size : Nat) (st : State) :
    construct_elements_of_array ptr size st
      = { mem := st.mem, trace := st.trace ++ (List.range size).map (Event.construct ptr) } :=
  foldl_construct ptr (List.range size) st

/-- For an array within the size limit and a non-null `ptr`, the new-expression constructs
the `size` elements in index order and yields `ptr`. -/
theorem placement_new_array_eq (bits max_array_bytes sizeofT ptr size : Nat) (st : State)
    (hptr : ptr ≠ 0) (hmax : sizeofT * size ≤ max_array_bytes)
    (hfit : sizeofT * size < 2 ^ bits) :
    placement_new_array bits max_array_bytes sizeofT ptr size st
      = (.ret ptr,
          { mem := st.mem,
            trace := st.trace ++ (List.range size).map (Event.construct ptr) }) := by
  have hle : ¬ sizeofT * size > min max_array_bytes (2 ^ bits - 1) := by
    rw [Nat.not_lt, Nat.le_min]
    exact ⟨hmax, by omega⟩
  unfold placement_new_array
  rw [if_neg hle, if_neg hptr, construct_elements_of_array_eq]

/-- The destructor loop runs the destructors of the indices `size - 1, ..., 1, 0`. -/
theorem ei_delete_elements_of_array_eq (ptr size : Nat) (st : State) :
    ei_delete_elements_of_array ptr size st
      = { mem := st.mem,
          trace := st.trace ++ (List.range size).reverse.map (Event.destruct ptr) } := by
  induction size generalizing st with
  | zero => simp [ei_delete_elements_of_array]
  | succ n ih =>
    rw [ei_delete_elements_of_array, ih]
    simp [State.push, List.range_succ]

/-- A call of `ei_aligned_free(ptr)` leaves memory as it is and appends to the trace exactly
the release of `ptr` by the strategy that matches the allocation strategy in force. -/
theorem ei_aligned_free_eq (cfg : Config) (ptr : Nat) (st : State) :
    ei_aligned_free cfg ptr st
      = { mem := st.mem, trace := st.trace ++ matching_release cfg ptr st.mem } := by
  rcases cfg with ⟨⟨a, b, c, d⟩, _, _, _, _, _, _⟩
  by_cases hp : ptr = 0 <;>
    cases a <;> cases b <;> cases c <;> cases d <;>
    simp [ei_aligned_free, ei_aligned_free_primitive, ei_aligned_malloc_primitive,
      release_counterpart, matching_release, State.push, ei_handmade_aligned_free, hp]

/-- C8 as stated fails. On a 64-bit machine `ei_aligned_new<T>(2 ^ 60 + 1)` for an element
type of 16 bytes constructs no element: the `size_t` product wraps, `malloc(32)` is the
only call, and the new-expression throws `std::bad_array_new_length`. And when the
allocation fails with `std::bad_alloc` (here `malloc(80)` returning null in a build with
`EIGEN_EXCEPTIONS`), `ei_aligned_new<T>(5)` constructs no element either. -/
theorem ei_aligned_new_constructs_nothing :
    (ei_aligned_new config_fallback platform_ok (2 ^ 64 - 1) 16 (2 ^ 60 + 1) State.init).1
      = .bad_array_new_length ∧
    (ei_aligned_new config_fallback platform_ok (2 ^ 64 - 1) 16 (2 ^ 60 + 1) State.init).2.trace
      = [.malloc 32] ∧
    (ei_aligned_new config_malloc_aligned platform_out_of_memory (2 ^ 64 - 1) 16 5
      State.init).1 = .bad_alloc ∧
    (ei_aligned_new config_malloc_aligned platform_out_of_memory (2 ^ 64 - 1) 16 5
      State.init).2.trace = [.malloc 80] := by
  decide

/-- C8 (amended): for every count `n` whose byte size `sizeof(T) * n` is within the array
size limit of the new-expression and does not wrap, once the allocation has returned a
non-null pointer `p`, `ei_aligned_new<T>(n)` and `ei_conditional_aligned_new<T, Align>(n)`
return `p` after constructing exactly the elements of indices `0, ..., n - 1`, in that order.
For every count `n` and pointer `ptr`, `ei_aligned_delete(ptr, n)` and
`ei_conditional_aligned_delete(ptr, n)` run exactly the `n` destructors of indices
`n - 1, ..., 0`, in that order, and only then release the memory: the one call that follows
is the release of `ptr` by the matching strategy (for `Align = false` the plain `free(ptr)`),
and memory is left as it is. For `n = 5` the destructors run in the order 4, 3, 2, 1, 0. -/
theorem typed_array_construct_destruct (cfg : Config) (env : Platform) (Align : Bool)
    (max_array_bytes sizeofT n ptr : Nat) (st : State) :
    (∀ p, (ei_aligned_malloc cfg env ((sizeofT * n) % 2 ^ cfg.bits) st).1 = .ret p →
      p ≠ 0 → sizeofT * n ≤ max_array_bytes → sizeofT * n < 2 ^ cfg.bits →
      ei_aligned_new cfg env max_array_bytes sizeofT n st
        = (.ret p,
            { mem := (ei_aligned_malloc cfg env ((sizeofT * n) % 2 ^ cfg.bits) st).2.mem,
              trace := (ei_aligned_malloc cfg env ((sizeofT * n) % 2 ^ cfg.bits) st).2.trace
                ++ (List.range n).map (Event.construct p) })) ∧
    (∀ p, (ei_conditional_aligned_malloc cfg env Align ((sizeofT * n) % 2 ^ cfg.bits) st).1
        = .ret p →
      p ≠ 0 → sizeofT * n ≤ max_array_bytes → sizeofT * n < 2 ^ cfg.bits →
      ei_conditional_aligned_new cfg env Align max_array_bytes sizeofT n st
        = (.ret p,
            { mem := (ei_conditional_aligned_malloc cfg env Align
                ((sizeofT * n) % 2 ^ cfg.bits) st).2.mem,
              trace := (ei_conditional_aligned_malloc cfg env Align
                ((sizeofT * n) % 2 ^ cfg.bits) st).2.trace
                ++ (List.range n).map (Event.construct p) })) ∧
    ei_aligned_delete cfg ptr n st
      = { mem := st.mem,
          trace := st.trace ++ (List.range n).reverse.map (Event.destruct ptr)
            ++ matching_release cfg ptr st.mem } ∧
    ei_conditional_aligned_delete cfg Align ptr n st
      = { mem := st.mem,
          trace := st.trace ++ (List.range n).reverse.map (Event.destruct ptr)
            ++ (if Align = true then matching_release cfg ptr st.mem else [.free ptr]) } ∧
    (ei_delete_elements_of_array ptr 5 st).trace
      = st.trace ++ [.destruct ptr 4, .destruct ptr 3, .destruct ptr 2, .destruct ptr 1,
          .destruct ptr 0] := by
  refine ⟨?_, ?_, ?_, ?_, ?_⟩
  · intro p hp hnull hmax hfit
    unfold ei_aligned_new
    generalize ei_aligned_malloc cfg env ((sizeofT * n) % 2 ^ cfg.bits) st = r at hp
    rcases r with ⟨o, s1⟩
    simp only at hp
    subst hp
    simp only
    exact placement_new_array_eq _ _ _ _ _ _ hnull hmax hfit
  · intro p hp hnull hmax hfit
    unfold ei_conditional_aligned_new
    generalize ei_conditional_aligned_malloc cfg env Align ((sizeofT * n) % 2 ^ cfg.bits) st
      = r at hp
    rcases r with ⟨o, s1⟩
    simp only at hp
    subst hp
    simp only
    exact placement_new_array_eq _ _ _ _ _ _ hnull hmax hfit
  · rw [ei_aligned_delete, ei_aligned_free_eq, ei_delete_elements_of_array_eq]
  · cases Align
    · simp [ei_conditional_aligned_delete, ei_conditional_aligned_free,
        ei_delete_elements_of_array_eq, State.push]
    · simp only [ei_conditional_aligned_delete, ei_conditional_aligned_free, if_true]
      rw [ei_aligned_free_eq, ei_delete_elements_of_array_eq]
  · rw [ei_delete_elements_of_array_eq]
    rfl

/-- C8 (amended) at a concrete input: five elements of 16 bytes in the 64-bit fallback build
with the array size limit `2 ^ 63 - 1`; `malloc(96)` hands back `0x1008`, the array is at
`0x1010`, and deleting it afterwards ends with `free(0x1008)`. -/
theorem typed_array_construct_destruct_witness :
    ((ei_aligned_malloc config_fallback platform_ok ((16 * 5) % 2 ^ config_fallback.bits)
        State.init).1 = .ret 4112 ∧
      4112 ≠ 0 ∧ 16 * 5 ≤ 2 ^ 63 - 1 ∧ 16 * 5 < 2 ^ config_fallback.bits) ∧
    (ei_aligned_new config_fallback platform_ok (2 ^ 63 - 1) 16 5 State.init).1 = .ret 4112 ∧
    (ei_aligned_new config_fallback platform_ok (2 ^ 63 - 1) 16 5 State.init).2.trace
      = [.malloc 96, .construct 4112 0, .construct 4112 1, .construct 4112 2,
          .construct 4112 3, .construct 4112 4] ∧
    (ei_aligned_delete config_fallback 4112 5
        (ei_aligned_new config_fallback platform_ok (2 ^ 63 - 1) 16 5 State.init).2).trace
      = [.malloc 96, .construct 4112 0, .construct 4112 1, .construct 4112 2,
          .construct 4112 3, .construct 4112 4, .destruct 4112 4, .destruct 4112 3,
          .destruct 4112 2, .destruct 4112 1, .destruct 4112 0, .free 4104] := by
  have h := (typed_array_construct_destruct config_fallback platform_ok true (2 ^ 63 - 1)
    16 5 4112 State.init).1 4112 (by decide) (by decide) (by decide) (by decide)
  have hd := (typed_array_construct_destruct config_fallback platform_ok true (2 ^ 63 - 1)
    16 5 4112
    (ei_aligned_new config_fallback platform_ok (2 ^ 63 - 1) 16 5 State.init).2).2.2.1
  refine ⟨⟨by decide, by decide, by decide, by decide⟩, ?_, ?_, ?_⟩
  · rw [h]
  · rw [h]
    decide
  · rw [hd, h]
    decide

/-! ## Conditional dispatch -/

/-- C9 as stated fails: in a debug build with `EIGEN_NO_MALLOC` defined,
`ei_conditional_aligned_malloc<false>(8)` stops at the assertion and issues no `malloc`; and
in a build with `EIGEN_EXCEPTIONS`, when `malloc(8)` returns null, the result is not returned:
`std::bad_alloc` is thrown after that one call. -/
theorem ei_conditional_aligned_malloc_plain_no_malloc :
    (ei_conditional_aligned_malloc config_no_malloc_debug platform_ok false 8 State.init).1
      = .assert_fail ∧
    (ei_conditional_aligned_malloc config_no_malloc_debug platform_ok false 8 State.init).2.trace
      = [] ∧
    Event.malloc 8 ∉
      (ei_conditional_aligned_malloc config_no_malloc_debug platform_ok false 8
        State.init).2.trace ∧
    (ei_conditional_aligned_malloc config_fallback platform_out_of_memory false 8 State.init).1
      = .bad_alloc ∧
    (ei_conditional_aligned_malloc config_fallback platform_out_of_memory false 8
      State.init).2.trace = [.malloc 8] := by
  decide

/-- C9 (amended): for every size `s` and pointer `p`, the `Align = true` variants are
`ei_aligned_malloc(s)` and `ei_aligned_free(p)`; `ei_conditional_aligned_free<false>(p)` makes
exactly one call, `free(p)`, and leaves memory untouched; and unless `EIGEN_NO_MALLOC` is defined
with `ei_assert` active, `ei_conditional_aligned_malloc<false>(s)` makes exactly one
call, `malloc(s)`, leaves memory untouched, and returns the result of that call unchanged,
except that it throws `std::bad_alloc` when `EIGEN_EXCEPTIONS` is defined and the result is
null. -/
theorem ei_conditional_dispatch (cfg : Config) (env : Platform) (s p : Nat) (st : State) :
    ei_conditional_aligned_malloc cfg env true s st = ei_aligned_malloc cfg env s st ∧
    ei_conditional_aligned_free cfg true p st = ei_aligned_free cfg p st ∧
    ei_conditional_aligned_free cfg false p st
      = { mem := st.mem, trace := st.trace ++ [.free p] } ∧
    ((cfg.EIGEN_NO_MALLOC && cfg.assertions) = false →
      (ei_conditional_aligned_malloc cfg env false s st).2
        = { mem := st.mem, trace := st.trace ++ [.malloc s] } ∧
      (ei_conditional_aligned_malloc cfg env false s st).1
        = if cfg.EIGEN_EXCEPTIONS = true ∧ env.malloc s = 0 then .bad_alloc
          else .ret (env.malloc s)) := by
  refine ⟨rfl, rfl, rfl, ?_⟩
  intro hno
  have hno2 : (cfg.EIGEN_NO_MALLOC && ei_assert cfg false) = false := by
    simpa [ei_assert] using hno
  simp only [ei_conditional_aligned_malloc, hno2]
  by_cases hexc : cfg.EIGEN_EXCEPTIONS = true
  · by_cases hz : env.malloc s = 0
    · simp [hexc, hz, State.push]
    · simp [hexc, hz, State.push]
  · simp [hexc, State.push]

/-- C9 (amended) at a concrete input: the plain variant in the 64-bit fallback build, 8
bytes, `malloc(8)` handing back `0x1008`. -/
theorem ei_conditional_dispatch_witness :
    (config_fallback.EIGEN_NO_MALLOC && config_fallback.assertions) = false ∧
    (ei_conditional_aligned_malloc config_fallback platform_ok false 8 State.init).2.trace
      = [.malloc 8] ∧
    (ei_conditional_aligned_malloc config_fallback platform_ok false 8 State.init).1
      = .ret 4104 := by
  have h := (ei_conditional_dispatch config_fallback platform_ok 8 0 State.init).2.2.2 rfl
  refine ⟨rfl, ?_, ?_⟩
  · rw [h.1]
    rfl
  · rw [h.2]
    decide

/-! ## Per-type operator new -/

/-- Reducing `Size` modulo `2 ^ bits` and the product modulo `2 ^ bits` does not change
whether the product is a multiple of 16. -/
theorem wrapped_product_mod (bits sizeofScalar : Nat) (Size : Int) (h : 4 ≤ bits) :
    (sizeofScalar * (Size % 2 ^ bits).toNat) % 2 ^ bits % 16 = 0 ↔
      (16 : Int) ∣ (sizeofScalar : Int) * Size := by
  obtain ⟨k, rfl⟩ : ∃ k, bits = 4 + k := ⟨bits - 4, by omega⟩
  have hpos : (0 : Int) < 2 ^ (4 + k) := by positivity
  have hnn : 0 ≤ Size % 2 ^ (4 + k) := Int.emod_nonneg _ (ne_of_gt hpos)
  rw [mod_word_mod _ _ (by omega), ← Nat.dvd_iff_mod_eq_zero, ← Int.natCast_dvd_natCast]
  push_cast
  rw [Int.toNat_of_nonneg hnn]
  have hm : (16 : Int) ∣ 2 ^ (4 + k) := ⟨2 ^ k, by rw [pow_add]; norm_num⟩
  have hsplit : (sizeofScalar : Int) * Size
      = sizeofScalar * (Size % 2 ^ (4 + k))
        + sizeofScalar * (2 ^ (4 + k) * (Size / 2 ^ (4 + k))) := by
    rw [← mul_add, Int.emod_add_ediv]
  rw [hsplit]
  have h2 : (16 : Int) ∣ sizeofScalar * (2 ^ (4 + k) * (Size / 2 ^ (4 + k))) :=
    Dvd.dvd.mul_left (Dvd.dvd.mul_right hm _) _
  exact ((Int.dvd_add_left h2).symm)

/-- C10: for every scalar byte width `sizeofScalar` and every `Size`, on a machine word of at
least 4 bits, the flag computed by `EIGEN_MAKE_ALIGNED_OPERATOR_NEW_IF_VECTORIZABLE_FIXED_SIZE`
is true exactly when `Size` is not `Eigen::Dynamic` and the product `sizeofScalar * Size`,
taken as an integer, is a multiple of 16; 4 floats and 2 doubles give true, 3 floats give
false, and `Dynamic` gives false whatever the product is. -/
theorem NeedsToAlign_iff (bits : Nat) (Dynamic : Int) (sizeofScalar : Nat) (Size : Int)
    (h : 4 ≤ bits) :
    (NeedsToAlign bits Dynamic sizeofScalar Size = true ↔
      Size ≠ Dynamic ∧ (16 : Int) ∣ (sizeofScalar : Int) * Size) ∧
    (Dynamic ≠ 4 → NeedsToAlign bits Dynamic 4 4 = true) ∧
    (Dynamic ≠ 2 → NeedsToAlign bits Dynamic 8 2 = true) ∧
    NeedsToAlign bits Dynamic 4 3 = false ∧
    NeedsToAlign bits Dynamic sizeofScalar Dynamic = false := by
  have key : ∀ (sz : Nat) (S : Int), NeedsToAlign bits Dynamic sz S = true ↔
      S ≠ Dynamic ∧ (16 : Int) ∣ (sz : Int) * S := by
    intro sz S
    simp only [NeedsToAlign, Bool.and_eq_true, bne_iff_ne, beq_iff_eq, ne_eq]
    rw [wrapped_product_mod bits sz S h]
  refine ⟨key _ _, ?_, ?_, ?_, ?_⟩
  · intro hd
    exact (key 4 4).2 ⟨fun e => hd e.symm, by norm_num⟩
  · intro hd
    exact (key 8 2).2 ⟨fun e => hd e.symm, by norm_num⟩
  · rw [Bool.eq_false_iff]
    intro e
    have := ((key 4 3).1 e).2
    norm_num at this
  · rw [Bool.eq_false_iff]
    intro e
    exact ((key _ _).1 e).1 rfl

/-- C10 at concrete inputs: a 64-bit machine with `Eigen::Dynamic = 10000`; 4 floats need
alignment, 10000 doubles (the `Dynamic` marker, 80000 bytes, a multiple of 16) do not. -/
theorem NeedsToAlign_iff_witness :
    4 ≤ 64 ∧ NeedsToAlign 64 10000 4 4 = true ∧ NeedsToAlign 64 10000 8 10000 = false ∧
    (16 : Int) ∣ ((8 : Nat) : Int) * 10000 :=
  ⟨by decide, (NeedsToAlign_iff 64 10000 4 4 (by decide)).2.1 (by decide),
    (NeedsToAlign_iff 64 10000 8 10000 (by decide)).2.2.2.2, by decide⟩

/-! ## The allocator class -/

/-- When the product `num * sizeof(T)` fits a `size_t`, `allocate(num)` passes exactly that
many bytes to `ei_aligned_malloc`. -/
theorem aligned_allocator_allocate_bytes_exact (bits sizeofT num : Nat)
    (h : num * sizeofT < 2 ^ bits) :
    aligned_allocator.allocate_bytes bits sizeofT num = num * sizeofT :=
  Nat.mod_eq_of_lt h

/-- For every element type of at least 2 bytes, the count `max_size()` itself makes the
product wrap: the bytes passed on are not `max_size() * sizeof(T)`. -/
theorem aligned_allocator_max_size_wraps (bits sizeofT : Nat) (hb : 1 ≤ bits)
    (hT : 2 ≤ sizeofT) :
    aligned_allocator.allocate_bytes bits sizeofT (aligned_allocator.max_size bits)
      ≠ aligned_allocator.max_size bits * sizeofT := by
  have h2 : 2 ≤ 2 ^ bits := by
    calc 2 = 2 ^ 1 := by norm_num
      _ ≤ 2 ^ bits := Nat.pow_le_pow_right (by norm_num) hb
  have hlt : aligned_allocator.allocate_bytes bits sizeofT (aligned_allocator.max_size bits)
      < 2 ^ bits := Nat.mod_lt _ (by omega)
  have hge : (2 ^ bits - 1) * 2 ≤ (2 ^ bits - 1) * sizeofT := Nat.mul_le_mul_left _ hT
  simp only [aligned_allocator.max_size] at hlt ⊢
  omega

/-- C11 (evaluation at the failing input): on a 64-bit machine, for an element type of 16
bytes and the count `2 ^ 60 + 1`, which does not exceed `max_size()`, `allocate` passes 16
bytes to `ei_aligned_malloc`, not the product `(2 ^ 60 + 1) * 16`: the `size_t`
multiplication wraps, and the block is obtained with `malloc(32)` in the fallback build. -/
theorem aligned_allocator_allocate_wraps :
    2 ^ 60 + 1 ≤ aligned_allocator.max_size 64 ∧
    aligned_allocator.allocate_bytes 64 16 (2 ^ 60 + 1) = 16 ∧
    aligned_allocator.allocate_bytes 64 16 (2 ^ 60 + 1) ≠ (2 ^ 60 + 1) * 16 ∧
    (aligned_allocator.allocate config_fallback platform_ok 16 (2 ^ 60 + 1) State.init).1
      = .ret 4112 ∧
    (aligned_allocator.allocate config_fallback platform_ok 16 (2 ^ 60 + 1) State.init).2.trace
      = [.malloc 32] := by
  decide

/-! ## Layout of the handmade block -/

/-- Masking a machine word with `~size_t(15)` rounds it down to a multiple of 16. -/
theorem land_mask_eq (bits x : Nat) (h : 4 ≤ bits) (hx : x < 2 ^ bits) :
    x &&& size_t_not bits 15 = 16 * (x / 16) := by
  have h16 : (16 : Nat) ≤ 2 ^ bits := by
    calc (16 : Nat) = 2 ^ 4 := by norm_num
      _ ≤ 2 ^ bits := Nat.pow_le_pow_right (by norm_num) h
  have h15 : 15 < 2 ^ bits := by omega
  rw [size_t_not_15 bits h]
  apply Nat.eq_of_testBit_eq
  intro i
  have e1 : 2 ^ bits - 16 = 2 ^ bits - (15 + 1) := rfl
  have e2 : (15 : Nat) = 2 ^ 4 - 1 := by norm_num
  have e3 : (16 : Nat) = 2 ^ 4 := by norm_num
  rw [Nat.testBit_and, e1, Nat.testBit_two_pow_sub_succ h15, e2, Nat.testBit_two_pow_sub_one]
  rw [e3, Nat.testBit_mul_pow_two, ← Nat.shiftRight_eq_div_pow, Nat.testBit_shiftRight]
  by_cases hi4 : i < 4
  · have : ¬ i ≥ 4 := by omega
    simp [hi4, this]
  · have hge : i ≥ 4 := by omega
    have e5 : 4 + (i - 4) = i := by omega
    by_cases hib : i < bits
    · simp [hi4, hge, hib, e5]
    · have hxi : x < 2 ^ i := lt_of_lt_of_le hx (Nat.pow_le_pow_right (by norm_num) (by omega))
      simp [hi4, hge, hib, e5, Nat.testBit_lt_two_pow hxi]

/-- When the block start leaves 16 bytes below the top of the address space, the address
returned by `ei_handmade_aligned_malloc` is `16 * (original / 16) + 16`. -/
theorem handmade_aligned_eq (bits : Nat) (env : Platform) (size : Nat) (st : State)
    (h : env.malloc ((size + 16) % 2 ^ bits) + 16 < 2 ^ bits) :
    (ei_handmade_aligned_malloc bits env size st).1
      = 16 * (env.malloc ((size + 16) % 2 ^ bits) / 16) + 16 := by
  have hb : 4 ≤ bits := by
    by_contra hlt
    have hb4 : bits < 4 := by omega
    have : 2 ^ bits ≤ 2 ^ 4 := Nat.pow_le_pow_right (by norm_num) (by omega)
    omega
  simp only [ei_handmade_aligned_malloc]
  rw [land_mask_eq bits _ hb (by omega)]
  exact Nat.mod_eq_of_lt (by omega)

/-- C12 as stated fails: on a 64-bit machine `ei_handmade_aligned_malloc(2 ^ 64 - 1)` does not
request `size + 16` bytes: the `size_t` sum wraps and the single call is `malloc(15)`. -/
theorem ei_handmade_aligned_malloc_request_wraps :
    2 ^ 64 - 1 < 2 ^ 64 ∧
    (ei_handmade_aligned_malloc 64 platform_ok (2 ^ 64 - 1) State.init).2.trace
      = [.malloc 15] ∧
    Event.malloc (2 ^ 64 - 1 + 16) ∉
      (ei_handmade_aligned_malloc 64 platform_ok (2 ^ 64 - 1) State.init).2.trace := by
  decide

/-- C12 (amended): for every size with `size + 16 < 2 ^ bits` (the `size_t` sum does not wrap),
`ei_handmade_aligned_malloc` makes a single call to the plain allocator, `malloc(size + 16)`.
So the bytes requested exceed the bytes asked for by 16, which is not more than
`2 * 16 - 1 = 31`; and when the block lies below the top of the address space, between 1 and
16 of the requested bytes precede the returned address, so the bytes requested exceed the
bytes from the returned address to the end of the block by at most 31 as well. -/
theorem ei_handmade_aligned_malloc_request (bits : Nat) (env : Platform) (size : Nat)
    (st : State) (h : size + 16 < 2 ^ bits) :
    (ei_handmade_aligned_malloc bits env size st).2.trace
      = st.trace ++ [.malloc (size + 16)] ∧
    (size + 16) - size ≤ 2 * 16 - 1 ∧
    (env.malloc (size + 16) + size + 16 < 2 ^ bits →
      env.malloc (size + 16) < (ei_handmade_aligned_malloc bits env size st).1 ∧
      (ei_handmade_aligned_malloc bits env size st).1 ≤ env.malloc (size + 16) + 16 ∧
      (size + 16) - (env.malloc (size + 16) + (size + 16)
        - (ei_handmade_aligned_malloc bits env size st).1) ≤ 2 * 16 - 1) := by
  have hreq : (size + 16) % 2 ^ bits = size + 16 := Nat.mod_eq_of_lt h
  refine ⟨?_, by omega, ?_⟩
  · rw [(handmade_malloc_effect bits env size st).2, hreq]
  · intro hfit
    have ha := handmade_aligned_eq bits env size st (by rw [hreq]; omega)
    rw [hreq] at ha
    rw [ha]
    omega

/-- C12 (amended) at a concrete input: 24 bytes on a 64-bit machine, `malloc(40)` handing
back `0x1008`; the returned address is `0x1010`, 8 bytes into the block. -/
theorem ei_handmade_aligned_malloc_request_witness :
    24 + 16 < 2 ^ 64 ∧
    (ei_handmade_aligned_malloc 64 platform_ok 24 State.init).2.trace
      = State.init.trace ++ [.malloc (24 + 16)] ∧
    platform_ok.malloc (24 + 16) < (ei_handmade_aligned_malloc 64 platform_ok 24 State.init).1 ∧
    (ei_handmade_aligned_malloc 64 platform_ok 24 State.init).1
      ≤ platform_ok.malloc (24 + 16) + 16 :=
  have h := ei_handmade_aligned_malloc_request 64 platform_ok 24 State.init (by decide)
  ⟨by decide, h.1, (h.2.2 (by decide)).1, (h.2.2 (by decide)).2.1⟩

/-- C13: in `ei_handmade_aligned_malloc`, for every size and every block start `original`
that is a multiple of the pointer size `P` (`P` being 4 or 8) with
`original + size + 16 < 2 ^ bits`, the returned address `a` is a multiple of 16, is at
least `original + P`, is the least such multiple, and is at most `original + 16`. The slot
the origin is stored in is `[a - P, a)` and holds `original`; this slot and the region
`[a, a + size)` lie inside the block `[original, original + size + 16)`. -/
theorem ei_handmade_aligned_malloc_layout (bits : Nat) (env : Platform) (size : Nat)
    (st : State) (original a P : Nat)
    (ho : original = env.malloc ((size + 16) % 2 ^ bits))
    (ha : a = (ei_handmade_aligned_malloc bits env size st).1)
    (hP : P = sizeof_ptr bits) (hP48 : P = 4 ∨ P = 8)
    (hmul : P ∣ original) (hfit : original + size + 16 < 2 ^ bits) :
    a % 16 = 0 ∧ original + P ≤ a ∧
    (∀ m, m % 16 = 0 → original + P ≤ m → a ≤ m) ∧
    a ≤ original + 16 ∧
    slot_before bits a = a - P ∧
    (ei_handmade_aligned_malloc bits env size st).2.mem (a - P) = original ∧
    (original ≤ a - P ∧ (a - P) + P ≤ original + size + 16) ∧
    (original ≤ a ∧ a + size ≤ original + size + 16) := by
  have haeq : a = 16 * (original / 16) + 16 := by
    rw [ha, ho]
    exact handmade_aligned_eq bits env size st (by rw [← ho]; omega)
  have hmod : original % 4 = 0 ∧ (P = 8 → original % 8 = 0) := by
    obtain ⟨c, hc⟩ := hmul
    rcases hP48 with rfl | rfl <;> omega
  have hPa : P ≤ a := by rcases hP48 with h4 | h8 <;> omega
  have hslot : slot_before bits a = a - P := by
    unfold slot_before
    rw [← hP]
    have e : a + 2 ^ bits - P = (a - P) + 2 ^ bits := by omega
    rw [e, Nat.add_mod_right]
    exact Nat.mod_eq_of_lt (by omega)
  have hmem := (handmade_malloc_effect bits env size st).1
  rw [← ha, hslot, ← ho] at hmem
  refine ⟨by omega, ?_, ?_, by omega, hslot, hmem, ⟨?_, by omega⟩, ⟨by omega, by omega⟩⟩
  · rcases hP48 with h4 | h8
    · omega
    · have := hmod.2 h8
      omega
  · intro m hm hle
    omega
  · rcases hP48 with h4 | h8
    · omega
    · have := hmod.2 h8
      omega

/-- C13 at a concrete input: a 64-bit machine (`P = 8`), 24 bytes, `malloc(40)` handing back
`0x1008`; the returned address is `0x1010` and the origin is stored in `[0x1008, 0x1010)`. -/
theorem ei_handmade_aligned_malloc_layout_witness :
    (4112 = (ei_handmade_aligned_malloc 64 platform_ok 24 State.init).1 ∧
      8 = sizeof_ptr 64 ∧ 8 ∣ 4104 ∧ 4104 + 24 + 16 < 2 ^ 64) ∧
    (4112 % 16 = 0 ∧ 4104 + 8 ≤ 4112 ∧
    (∀ m, m % 16 = 0 → 4104 + 8 ≤ m → 4112 ≤ m) ∧
    4112 ≤ 4104 + 16 ∧
    slot_before 64 4112 = 4112 - 8 ∧
    (ei_handmade_aligned_malloc 64 platform_ok 24 State.init).2.mem (4112 - 8) = 4104 ∧
    (4104 ≤ 4112 - 8 ∧ (4112 - 8) + 8 ≤ 4104 + 24 + 16) ∧
    (4104 ≤ 4112 ∧ 4112 + 24 ≤ 4104 + 24 + 16)) :=
  ⟨⟨by decide, by decide, by decide, by decide⟩,
    ei_handmade_aligned_malloc_layout 64 platform_ok 24 State.init 4104 4112 8 rfl (by decide)
      (by decide) (Or.inr rfl) (by decide) (by decide)⟩

/-! ## Alignment offset -/

/-- A bit pattern below `2 ^ 31` is the `int` of the same value. -/
theorem int_of_bits_small (n : Nat) (h : n < 2 ^ 31) : int_of_bits n = (n : Int) := by
  have h1 : n % 2 ^ 32 = n := Nat.mod_eq_of_lt (by omega)
  unfold int_of_bits
  rw [h1, if_pos h]

/-- For each packet size 2, 4, 8, 16, with the scalar size that goes with it, the mask
`PacketSize - 1` reduces modulo the packet size, and the masked difference computed for the
element index `q` is the least number of elements to skip. -/
theorem alignment_offset_core (s PS q : Nat) (h16 : PS * s = 16) (hPS : 1 < PS) :
    (∀ d, d &&& ((PS + 2 ^ 32 - 1) % 2 ^ 32) = d % PS) ∧
    ((PS + 2 ^ 32 - q % 2 ^ 32 % PS) % 2 ^ 32) % PS < PS ∧
    (s * q + ((PS + 2 ^ 32 - q % 2 ^ 32 % PS) % 2 ^ 32) % PS * s) % 16 = 0 ∧
    (∀ j, (s * q + j * s) % 16 = 0 →
      ((PS + 2 ^ 32 - q % 2 ^ 32 % PS) % 2 ^ 32) % PS ≤ j) := by
  have hle : PS ≤ 16 := Nat.le_of_dvd (by norm_num) ⟨s, h16.symm⟩
  have hcases : (PS = 2 ∧ s = 8) ∨ (PS = 4 ∧ s = 4) ∨ (PS = 8 ∧ s = 2) ∨
      (PS = 16 ∧ s = 1) := by
    interval_cases PS <;> omega
  rcases hcases with ⟨rfl, rfl⟩ | ⟨rfl, rfl⟩ | ⟨rfl, rfl⟩ | ⟨rfl, rfl⟩
  · exact ⟨fun d => Nat.and_pow_two_sub_one_eq_mod d 1, by omega, by omega,
      fun j hj => by omega⟩
  · exact ⟨fun d => Nat.and_pow_two_sub_one_eq_mod d 2, by omega, by omega,
      fun j hj => by omega⟩
  · exact ⟨fun d => Nat.and_pow_two_sub_one_eq_mod d 3, by omega, by omega,
      fun j hj => by omega⟩
  · exact ⟨fun d => Nat.and_pow_two_sub_one_eq_mod d 4, by omega, by omega,
      fun j hj => by omega⟩

/-- C14: for every scalar size `s` and packet size `PS > 1` with `PS * s = 16`, every address
`ptr` that is a multiple of `s` and every `maxOffset`, `ei_alignmentOffset(ptr, maxOffset)`
returns `min(k, maxOffset)`, where `k` is the least number of elements with
`(ptr + k * s) mod 16 = 0`, and `0 <= k < PS`; when `PS = 1` it returns 0. -/
theorem ei_alignmentOffset_least_skip (s PS ptr : Nat) (maxOffset : Int)
    (h16 : PS * s = 16) (hPS : 1 < PS) (hptr : s ∣ ptr) :
    (∃ k : Nat, k < PS ∧ (ptr + k * s) % 16 = 0 ∧
      (∀ j, (ptr + j * s) % 16 = 0 → k ≤ j) ∧
      ei_alignmentOffset s PS ptr maxOffset = min (k : Int) maxOffset) ∧
    ei_alignmentOffset s 1 ptr maxOffset = 0 := by
  obtain ⟨q, rfl⟩ := hptr
  have hs : 0 < s := by
    rcases Nat.eq_zero_or_pos s with h | h
    · subst h
      simp at h16
    · exact h
  have hle : PS ≤ 16 := Nat.le_of_dvd (by norm_num) ⟨s, h16.symm⟩
  obtain ⟨hmask, h1, h2, h3⟩ := alignment_offset_core s PS q h16 hPS
  refine ⟨⟨_, h1, h2, h3, ?_⟩, ?_⟩
  · unfold ei_alignmentOffset
    simp only [gt_iff_lt, hPS, decide_True, if_true]
    rw [Nat.mul_div_cancel_left q hs, hmask, hmask, int_of_bits_small _ (by omega)]
  · simp [ei_alignmentOffset]

/-- C14 at a concrete input: floats (`s = 4`, `PS = 4`) at the address `0x1004`: three
elements are skipped to reach `0x1010`, and with `maxOffset = 2` the result is 2. -/
theorem ei_alignmentOffset_least_skip_witness :
    (4 * 4 = 16 ∧ 1 < 4 ∧ 4 ∣ 4100) ∧
    ei_alignmentOffset 4 4 4100 100 = 3 ∧ ei_alignmentOffset 4 4 4100 2 = 2 ∧
    ((∃ k : Nat, k < 4 ∧ (4100 + k * 4) % 16 = 0 ∧
      (∀ j, (4100 + j * 4) % 16 = 0 → k ≤ j) ∧
      ei_alignmentOffset 4 4 4100 100 = min (k : Int) 100) ∧
    ei_alignmentOffset 4 1 4100 100 = 0) :=
  ⟨⟨by decide, by decide, by decide⟩, by decide, by decide,
    ei_alignmentOffset_least_skip 4 4 4100 100 (by decide) (by decide) (by decide)⟩

end Eigen
